import Mathlib

/-!
Verification of the instant-quote pricing engine.

The repository holds two variants of the engine:
* the promo-code variant (`part_000`): `computeTotals` with a promo
  registry, whose two modifier parameters are unused underscore
  parameters — prices and durations there never depend on the modifiers;
* the modifier variant (the second document of `InstantQuoteSchedule.tsx`,
  `computeTotals` at its lines 714–764): two-story / gutter-guard /
  house-half-price price adjustments, no promo registry; embedded below as
  `computeTotalsTsx`.

Numbers are modelled as exact rationals (every quantity the engine
manipulates on its catalog is a small decimal fraction); JS `Math.round`
is `jsRound` below.  The promo-code variant's `computeTotals` is factored
into one named definition per local constant of the source function
(`chosenOf` for `chosen`, `subtotalOf` for `subtotal`, …), each a direct
transcription of the corresponding line of the source.
-/

namespace InstantQuote

/-- JS `Math.round`: floor of the argument plus one half (round half
toward positive infinity), as JavaScript's `Math.round` does. -/
def jsRound (q : ℚ) : ℤ := ⌊q + 1 / 2⌋

/-- The source's `round2`: `Math.round(n * 100) / 100`. -/
def round2 (n : ℚ) : ℚ := (jsRound (n * 100) : ℚ) / 100

/-- Catalog entry, from the source's `Service` type. -/
structure Service where
  id : String
  name : String
  basePrice : ℚ
  desc : String
deriving DecidableEq

/-- A `Service` with its per-request adjusted price (`PricedService`). -/
structure PricedService extends Service where
  price : ℚ
deriving DecidableEq

/-- The static catalog `SERVICES` (identical in both source variants). -/
def SERVICES : List Service := [
  ⟨"pressure-driveway", "Pressure Wash: Driveway", 249,
    "Clean your concrete driveway, front patio, walkway, and curb."⟩,
  ⟨"pressure-patio", "Pressure Wash: Back Patio", 99,
    "Clean the concrete patio behind your home."⟩,
  ⟨"roof", "Roof Clean", 899,
    "Soft wash your roof to remove black organic streaks."⟩,
  ⟨"house", "House Wash", 599,
    "Get rid of dust, cobwebs, mold, and mildew on exterior walls."⟩,
  ⟨"gutter", "Gutter Clean", 249,
    "Unclog your gutters and downspouts to prevent flooding."⟩,
  ⟨"windows", "Window + Screen Clean", 449,
    "Remove dirt, dust, and fingerprints from exterior windows/screens."⟩]

/-- The source's `DURATIONS_MIN` record, read with the `|| 0` default. -/
def DURATIONS_MIN (id : String) : ℚ :=
  if id = "pressure-driveway" then 60
  else if id = "pressure-patio" then 60
  else if id = "windows" then 180
  else if id = "house" then 120
  else if id = "roof" then 120
  else if id = "gutter" then 120
  else 0

/-- The source's `gutterDuration`. -/
def gutterDuration (twoStory guards : Bool) : ℚ :=
  let base : ℚ := if twoStory then 180 else 120
  if guards then base * 2 else base

/-- The source's `mapDurationToHours`: non-positive (JS-falsy `!mins` and
`mins < 0`) durations default to 1, otherwise `Math.ceil(mins / 60)`
clamped by `Math.min(Math.max(h, 1), 8)`. -/
def mapDurationToHours (mins : ℚ) : ℤ :=
  if mins = 0 ∨ mins < 0 then 1
  else min (max ⌈mins / 60⌉ 1) 8

/-- The TS `SelectionMap` is a string-keyed record of booleans; the engine
reads it only at the six catalog service ids (the `chosen` filter and the
promo predicate's `selected["roof"]`), so a finite map over exactly those
ids is a faithful embedding of every selection the engine can
distinguish. -/
structure Selection where
  pressureDriveway : Bool
  pressurePatio : Bool
  roof : Bool
  house : Bool
  gutter : Bool
  windows : Bool
deriving DecidableEq, Fintype

/-- Reading the selection map at a service id (absent keys are falsy). -/
def Selection.lookup (sel : Selection) (id : String) : Bool :=
  if id = "pressure-driveway" then sel.pressureDriveway
  else if id = "pressure-patio" then sel.pressurePatio
  else if id = "roof" then sel.roof
  else if id = "house" then sel.house
  else if id = "gutter" then sel.gutter
  else if id = "windows" then sel.windows
  else false

/-- JS `String.prototype.startsWith`, over the character list. -/
def strStartsWith (s pre : String) : Bool := pre.data.isPrefixOf s.data

/-- The source's `discountCategoryFor`: both pressure-wash variants
collapse to the category `"pressure"`; every other id is its own
category. -/
def discountCategoryFor (serviceId : String) : String :=
  if strStartsWith serviceId "pressure-" then "pressure" else serviceId

/-- JS `String.prototype.trim` (drop leading and trailing whitespace),
over the character list. -/
def jsTrim (s : String) : String :=
  ⟨((s.data.dropWhile Char.isWhitespace).reverse.dropWhile
      Char.isWhitespace).reverse⟩

/-- JS `String.prototype.toUpperCase`, over the character list (the promo
codes in the registry are ASCII, where Lean's `Char.toUpper` agrees with
JS). -/
def jsToUpper (s : String) : String := ⟨s.data.map Char.toUpper⟩

/-- Result record of a promo rule's `apply`. -/
structure ApplyResult where
  applicable : Bool
  amount : ℚ
  note : Option String
deriving DecidableEq

/-- A promo registry entry (`Promo`): canonical code, label, and the rule
taking the current selection and the post-bundle subtotal. -/
structure Promo where
  code : String
  label : String
  apply : Selection → ℚ → ApplyResult

/-- The ROOF50 registry entry: $50 off when roof cleaning is in the cart,
inapplicable (amount 0, with a note) otherwise. -/
def roofFifty : Promo where
  code := "ROOF50"
  label := "$50 off Roof Clean"
  apply := fun selected subtotalAfterBundle =>
    if !selected.roof then
      ⟨false, 0, some "Add Roof Clean to use ROOF50."⟩
    else
      ⟨true, min 50 (max 0 subtotalAfterBundle), none⟩

/-- The promo registry `PROMOS`. -/
def PROMOS : List Promo := [roofFifty]

/-- The source's `findPromo`: JS-falsy codes (`null`, `""`) give `null`;
otherwise trim, uppercase, and look the canonical form up in `PROMOS`. -/
def findPromo (code : Option String) : Option Promo :=
  match code with
  | none => none
  | some c =>
    if c = "" then none
    else PROMOS.find? (fun p => p.code = jsToUpper (jsTrim c))

/-- The `Totals` record of the promo-code variant. -/
structure Totals where
  selectedCount : ℕ
  effectiveCount : ℕ
  subtotal : ℚ
  multiRate : ℚ
  multiAmt : ℚ
  promoCode : Option String
  promoAmt : ℚ
  tripFee : ℚ
  total : ℚ
  durationMinutes : ℚ
deriving DecidableEq

/-! The named components of the promo-code variant's `computeTotals`, one
definition per local constant of the source function. -/

/-- `adjustedServices`: that variant prices every service at `basePrice`
(its modifier parameters are unused). -/
def adjustedOf (services : List Service) : List PricedService :=
  services.map (fun s => { toService := s, price := s.basePrice })

/-- `chosen`: the adjusted services whose id is selected. -/
def chosenOf (sel : Selection) (services : List Service) :
    List PricedService :=
  (adjustedOf services).filter (fun s => sel.lookup s.id)

/-- `selectedCount`. -/
def selectedCountOf (sel : Selection) (services : List Service) : ℕ :=
  (chosenOf sel services).length

/-- `effectiveCount`: the size of the set of discount categories of the
chosen services. -/
def effectiveCountOf (sel : Selection) (services : List Service) : ℕ :=
  (((chosenOf sel services).map
    (fun s => discountCategoryFor s.id)).dedup).length

/-- `subtotal`. -/
def subtotalOf (sel : Selection) (services : List Service) : ℚ :=
  (chosenOf sel services).foldl (fun sum s => sum + s.price) 0

/-- `multiRate`: the bundle-discount ladder on `effectiveCount`. -/
def multiRateOf (sel : Selection) (services : List Service) : ℚ :=
  if effectiveCountOf sel services ≥ 5 then 0.2
  else if effectiveCountOf sel services = 4 then 0.15
  else if effectiveCountOf sel services = 3 then 0.1
  else if effectiveCountOf sel services = 2 then 0.05
  else 0

/-- `multiAmt`. -/
def multiAmtOf (sel : Selection) (services : List Service) : ℚ :=
  round2 (subtotalOf sel services * multiRateOf sel services)

/-- `afterBundle`. -/
def afterBundleOf (sel : Selection) (services : List Service) : ℚ :=
  round2 (subtotalOf sel services - multiAmtOf sel services)

/-- `promoAmt`: zero unless the code resolves and its rule is applicable,
else the rule amount capped at the post-bundle subtotal, cent-rounded. -/
def promoAmtOf (sel : Selection) (services : List Service)
    (promoCode : Option String) : ℚ :=
  match findPromo promoCode with
  | none => 0
  | some p =>
    let res := p.apply sel (afterBundleOf sel services)
    if res.applicable then
      round2 (min (afterBundleOf sel services) res.amount)
    else 0

/-- `afterPromo`. -/
def afterPromoOf (sel : Selection) (services : List Service)
    (promoCode : Option String) : ℚ :=
  round2 (afterBundleOf sel services - promoAmtOf sel services promoCode)

/-- `tripFee` (`MIN_TOTAL = 249`). -/
def tripFeeOf (sel : Selection) (services : List Service)
    (promoCode : Option String) : ℚ :=
  if afterPromoOf sel services promoCode < 249 ∧
      0 < afterPromoOf sel services promoCode then
    round2 (249 - afterPromoOf sel services promoCode)
  else 0

/-- `total`. -/
def totalOf (sel : Selection) (services : List Service)
    (promoCode : Option String) : ℚ :=
  max 0 (round2 (afterPromoOf sel services promoCode +
    tripFeeOf sel services promoCode))

/-- `durationMinutes`: that variant always uses
`gutterDuration(false, false)` for the gutter. -/
def durationMinutesOf (sel : Selection) (services : List Service) : ℚ :=
  (chosenOf sel services).foldl (fun mins s =>
    if s.id = "gutter" then mins + gutterDuration false false
    else mins + DURATIONS_MIN s.id) 0

/-- `computeTotals` of the promo-code variant (`part_000`). The two
modifier parameters are the source's unused underscore parameters. -/
def computeTotals (selectedMap : Selection) (services : List Service)
    (_twoStory : Bool) (_gutterGuards : Bool)
    (promoCode : Option String) : Totals where
  selectedCount := selectedCountOf selectedMap services
  effectiveCount := effectiveCountOf selectedMap services
  subtotal := subtotalOf selectedMap services
  multiRate := multiRateOf selectedMap services
  multiAmt := multiAmtOf selectedMap services
  promoCode := (findPromo promoCode).map Promo.code
  promoAmt := promoAmtOf selectedMap services promoCode
  tripFee := tripFeeOf selectedMap services promoCode
  total := totalOf selectedMap services promoCode
  durationMinutes := durationMinutesOf selectedMap services

/-! The modifier variant (`computeTotalsTsx`). -/

/-- The `Totals` record of the modifier variant. -/
structure TotalsTsx where
  selectedCount : ℕ
  effectiveCount : ℕ
  subtotal : ℚ
  multiRate : ℚ
  multiAmt : ℚ
  tripFee : ℚ
  total : ℚ
  durationMinutes : ℚ
deriving DecidableEq

/-- The modifier variant's price-adjustment rules, one reassignment per
`if` of the source, in source order: two-story doubles the gutter and adds
a flat 100 to house and windows; gutter guards add a flat 749 to the
gutter; the house half-price promo rounds `price * 0.5` to whole currency
units (`Math.round`) last. -/
def adjustPrice (twoStory gutterGuards promoHouseHalf : Bool)
    (s : Service) : ℚ :=
  let price := s.basePrice
  let price := if twoStory ∧ s.id = "gutter" then s.basePrice * 2 else price
  let price := if twoStory ∧ s.id = "house" then s.basePrice + 100 else price
  let price :=
    if twoStory ∧ s.id = "windows" then s.basePrice + 100 else price
  let price := if gutterGuards ∧ s.id = "gutter" then price + 749 else price
  let price :=
    if promoHouseHalf ∧ s.id = "house" then (jsRound (price * 0.5) : ℚ)
    else price
  price

/-- `computeTotals` of the modifier variant (`InstantQuoteSchedule.tsx`,
second document, lines 714–764): modifier-adjusted prices, the same
category-count discount ladder, trip fee on `afterDiscount` (no promo
registry), and modifier-aware gutter duration. -/
def computeTotalsTsx (selectedMap : Selection) (services : List Service)
    (twoStory gutterGuards promoHouseHalf : Bool) : TotalsTsx :=
  let adjustedServices : List PricedService :=
    services.map (fun s =>
      { toService := s, price := adjustPrice twoStory gutterGuards
          promoHouseHalf s })
  let chosen := adjustedServices.filter (fun s => selectedMap.lookup s.id)
  let selectedCount := chosen.length
  let effectiveCount :=
    ((chosen.map (fun s => discountCategoryFor s.id)).dedup).length
  let subtotal := chosen.foldl (fun sum s => sum + s.price) 0
  let multiRate : ℚ :=
    if effectiveCount ≥ 5 then 0.2
    else if effectiveCount = 4 then 0.15
    else if effectiveCount = 3 then 0.1
    else if effectiveCount = 2 then 0.05
    else 0
  let multiAmt := round2 (subtotal * multiRate)
  let afterDiscount := round2 (subtotal - multiAmt)
  let tripFee : ℚ :=
    if afterDiscount < 249 ∧ 0 < afterDiscount then
      round2 (249 - afterDiscount)
    else 0
  let total := max 0 (round2 (afterDiscount + tripFee))
  let durationMinutes := chosen.foldl (fun mins s =>
    if s.id = "gutter" then mins + gutterDuration twoStory gutterGuards
    else mins + DURATIONS_MIN s.id) 0
  { selectedCount := selectedCount
    effectiveCount := effectiveCount
    subtotal := subtotal
    multiRate := multiRate
    multiAmt := multiAmt
    tripFee := tripFee
    total := total
    durationMinutes := durationMinutes }

/-- Modelled from the spec: the §4.3 bundle-discount tier table, a pure
step function of the effective category count (the comparison function for
the refinement claim about the discount rate). -/
def rateTable (effectiveCount : ℕ) : ℚ :=
  if effectiveCount ≥ 5 then 0.2
  else if effectiveCount = 4 then 0.15
  else if effectiveCount = 3 then 0.1
  else if effectiveCount = 2 then 0.05
  else 0

/-- `x` is a whole number of cents. -/
def Cent (x : ℚ) : Prop := ∃ n : ℤ, x * 100 = (n : ℚ)

/-- The source's minimum-fee/clamp tail, as a function of the post-promo
amount (helper for the proofs; not part of the embedding). -/
def clampMin (x : ℚ) : ℚ := if 0 < x ∧ x < 249 then 249 else max 0 x

/-! Arithmetic facts about `round2` used throughout: on amounts that are a
whole number of cents the cent rounding is the identity, and every value
the engine rounds is such an amount. -/

lemma cent_intCast (n : ℤ) : Cent (n : ℚ) := ⟨n * 100, by push_cast; ring⟩

lemma cent_natCast (n : ℕ) : Cent (n : ℚ) := ⟨(n : ℤ) * 100, by push_cast; ring⟩

lemma Cent.add {x y : ℚ} (hx : Cent x) (hy : Cent y) : Cent (x + y) := by
  obtain ⟨m, hm⟩ := hx
  obtain ⟨n, hn⟩ := hy
  exact ⟨m + n, by push_cast [← hm, ← hn]; ring⟩

lemma Cent.neg {x : ℚ} (hx : Cent x) : Cent (-x) := by
  obtain ⟨m, hm⟩ := hx
  exact ⟨-m, by push_cast [← hm]; ring⟩

lemma Cent.sub {x y : ℚ} (hx : Cent x) (hy : Cent y) : Cent (x - y) := by
  simpa [sub_eq_add_neg] using hx.add hy.neg

lemma Cent.min {x y : ℚ} (hx : Cent x) (hy : Cent y) : Cent (min x y) := by
  rcases le_total x y with h | h
  · simpa [min_eq_left h] using hx
  · simpa [min_eq_right h] using hy

lemma Cent.max {x y : ℚ} (hx : Cent x) (hy : Cent y) : Cent (max x y) := by
  rcases le_total x y with h | h
  · simpa [max_eq_right h] using hy
  · simpa [max_eq_left h] using hx

lemma cent_zero : Cent 0 := ⟨0, by norm_num⟩

lemma cent_round2 (x : ℚ) : Cent (round2 x) :=
  ⟨jsRound (x * 100), by unfold round2; field_simp⟩

/-- Cent rounding is the identity on whole numbers of cents. -/
lemma round2_cent {x : ℚ} (hx : Cent x) : round2 x = x := by
  obtain ⟨n, hn⟩ := hx
  unfold round2 jsRound
  rw [hn]
  have hfloor : ⌊(n : ℚ) + 1 / 2⌋ = n := by
    rw [Int.floor_int_add]
    norm_num
  rw [hfloor]
  have : x = (n : ℚ) / 100 := by
    field_simp at hn ⊢
    linarith
  linarith [this]

lemma round2_mono {x y : ℚ} (h : x ≤ y) : round2 x ≤ round2 y := by
  unfold round2 jsRound
  have : (⌊x * 100 + 1 / 2⌋ : ℤ) ≤ ⌊y * 100 + 1 / 2⌋ :=
    Int.floor_mono (by linarith)
  have hc : ((⌊x * 100 + 1 / 2⌋ : ℤ) : ℚ) ≤ ((⌊y * 100 + 1 / 2⌋ : ℤ) : ℚ) :=
    Int.cast_le.mpr this
  linarith

lemma round2_zero : round2 0 = 0 := round2_cent cent_zero

lemma round2_nonneg {x : ℚ} (h : 0 ≤ x) : 0 ≤ round2 x := by
  have := round2_mono h
  rwa [round2_zero] at this

/-! Structural facts about the promo-code variant. -/

/-- The registry lookup can only fail or return the ROOF50 entry. -/
lemma findPromo_cases (code : Option String) :
    findPromo code = none ∨ findPromo code = some roofFifty := by
  unfold findPromo
  rcases code with _ | c
  · exact Or.inl rfl
  · by_cases h0 : c = ""
    · simp [h0]
    · by_cases h : roofFifty.code = jsToUpper (jsTrim c) <;>
        simp [h0, PROMOS, List.find?, h]

lemma findPromo_none_of_null : findPromo none = none := rfl

lemma findPromo_ROOF50 : findPromo (some "ROOF50") = some roofFifty := rfl

lemma promoAmtOf_congr {c₁ c₂ : Option String}
    (h : findPromo c₁ = findPromo c₂) (sel : Selection)
    (services : List Service) :
    promoAmtOf sel services c₁ = promoAmtOf sel services c₂ := by
  unfold promoAmtOf
  rw [h]

/-- Two promo-code arguments resolving to the same registry entry give
identical `Totals` (the modifier arguments never matter in this
variant). -/
lemma computeTotals_congr {c₁ c₂ : Option String}
    (h : findPromo c₁ = findPromo c₂) (sel : Selection)
    (services : List Service) (ts gs ts' gs' : Bool) :
    computeTotals sel services ts gs c₁ =
      computeTotals sel services ts' gs' c₂ := by
  unfold computeTotals
  rw [promoAmtOf_congr h, h]
  unfold totalOf tripFeeOf afterPromoOf
  rw [promoAmtOf_congr h]

lemma promoAmtOf_none {code : Option String} (h : findPromo code = none)
    (sel : Selection) (services : List Service) :
    promoAmtOf sel services code = 0 := by
  unfold promoAmtOf
  rw [h]

lemma promoAmtOf_roofFifty {code : Option String}
    (h : findPromo code = some roofFifty) (sel : Selection)
    (services : List Service) (hr : sel.roof = true) :
    promoAmtOf sel services code =
      round2 (min (afterBundleOf sel services)
        (min 50 (max 0 (afterBundleOf sel services)))) := by
  unfold promoAmtOf
  rw [h]
  simp [roofFifty, hr]

lemma promoAmtOf_roofFifty_no {code : Option String}
    (h : findPromo code = some roofFifty) (sel : Selection)
    (services : List Service) (hr : sel.roof = false) :
    promoAmtOf sel services code = 0 := by
  unfold promoAmtOf
  rw [h]
  simp [roofFifty, hr]

/-- Summing whole-dollar prices starting from a whole-dollar accumulator
yields a whole dollar amount. -/
lemma foldl_price_nat (l : List PricedService)
    (h : ∀ s ∈ l, ∃ n : ℕ, s.price = (n : ℚ)) (init : ℕ) :
    ∃ n : ℕ,
      l.foldl (fun sum s => sum + s.price) (init : ℚ) = (n : ℚ) := by
  induction l generalizing init with
  | nil => exact ⟨init, rfl⟩
  | cons a t ih =>
    obtain ⟨m, hm⟩ := h a (List.mem_cons_self a t)
    obtain ⟨n, hn⟩ := ih (fun s hs => h s (List.mem_cons_of_mem a hs))
      (init + m)
    refine ⟨n, ?_⟩
    rw [← hn]
    simp [hm]

/-- Every adjusted price in the promo-code variant's catalog is a whole
number of dollars. -/
lemma adjusted_SERVICES_price {s : PricedService}
    (hs : s ∈ adjustedOf SERVICES) : ∃ n : ℕ, s.price = (n : ℚ) := by
  simp only [adjustedOf, SERVICES, List.map_cons, List.map_nil,
    List.mem_cons, List.not_mem_nil, or_false] at hs
  rcases hs with h | h | h | h | h | h <;> subst h
  · exact ⟨249, by norm_num⟩
  · exact ⟨99, by norm_num⟩
  · exact ⟨899, by norm_num⟩
  · exact ⟨599, by norm_num⟩
  · exact ⟨249, by norm_num⟩
  · exact ⟨449, by norm_num⟩

/-- The promo-code variant's subtotal is a whole number of dollars. -/
lemma subtotal_nat (sel : Selection) :
    ∃ n : ℕ, subtotalOf sel SERVICES = (n : ℚ) := by
  unfold subtotalOf
  have h : ∀ s ∈ chosenOf sel SERVICES, ∃ n : ℕ, s.price = (n : ℚ) :=
    fun s hs =>
      adjusted_SERVICES_price (List.mem_of_mem_filter hs)
  simpa using foldl_price_nat (chosenOf sel SERVICES) h 0

lemma subtotal_nonneg (sel : Selection) : 0 ≤ subtotalOf sel SERVICES := by
  obtain ⟨n, hn⟩ := subtotal_nat sel
  rw [hn]
  positivity

/-- The bundle rate takes one of the five ladder values. -/
lemma multiRate_mem (sel : Selection) (services : List Service) :
    multiRateOf sel services = 0 ∨ multiRateOf sel services = 0.05 ∨
      multiRateOf sel services = 0.1 ∨ multiRateOf sel services = 0.15 ∨
      multiRateOf sel services = 0.2 := by
  unfold multiRateOf
  split_ifs <;> simp

lemma multiRate_nonneg (sel : Selection) (services : List Service) :
    0 ≤ multiRateOf sel services := by
  rcases multiRate_mem sel services with h | h | h | h | h <;>
    rw [h] <;> norm_num

lemma multiRate_le_one (sel : Selection) (services : List Service) :
    multiRateOf sel services ≤ 1 := by
  rcases multiRate_mem sel services with h | h | h | h | h <;>
    rw [h] <;> norm_num

/-- A whole-dollar amount times a ladder rate is a whole number of
cents. -/
lemma cent_subtotal_mul_rate (sel : Selection) :
    Cent (subtotalOf sel SERVICES * multiRateOf sel SERVICES) := by
  obtain ⟨n, hn⟩ := subtotal_nat sel
  rcases multiRate_mem sel SERVICES with h | h | h | h | h <;>
    rw [hn, h]
  · exact ⟨0, by norm_num⟩
  · exact ⟨5 * n, by push_cast; ring⟩
  · exact ⟨10 * n, by push_cast; ring⟩
  · exact ⟨15 * n, by push_cast; ring⟩
  · exact ⟨20 * n, by push_cast; ring⟩

/-- On the real catalog the bundle discount needs no rounding: it is
exactly `subtotal × rate`. -/
lemma multiAmt_eq (sel : Selection) :
    multiAmtOf sel SERVICES =
      subtotalOf sel SERVICES * multiRateOf sel SERVICES := by
  unfold multiAmtOf
  exact round2_cent (cent_subtotal_mul_rate sel)

lemma cent_subtotal (sel : Selection) : Cent (subtotalOf sel SERVICES) := by
  obtain ⟨n, hn⟩ := subtotal_nat sel
  rw [hn]
  exact cent_natCast n

/-- The post-bundle subtotal needs no rounding either. -/
lemma afterBundle_eq (sel : Selection) :
    afterBundleOf sel SERVICES =
      subtotalOf sel SERVICES - multiAmtOf sel SERVICES := by
  unfold afterBundleOf
  refine round2_cent ?_
  rw [multiAmt_eq]
  exact (cent_subtotal sel).sub (cent_subtotal_mul_rate sel)

lemma cent_afterBundle (sel : Selection) :
    Cent (afterBundleOf sel SERVICES) := by
  rw [afterBundle_eq, multiAmt_eq]
  exact (cent_subtotal sel).sub (cent_subtotal_mul_rate sel)

lemma afterBundle_nonneg (sel : Selection) :
    0 ≤ afterBundleOf sel SERVICES := by
  rw [afterBundle_eq, multiAmt_eq]
  have hs := subtotal_nonneg sel
  have h1 := multiRate_le_one sel SERVICES
  nlinarith

/-- The promo amount is a whole number of cents, nonnegative, and never
exceeds the post-bundle subtotal. -/
lemma promoAmt_props (sel : Selection) (code : Option String) :
    Cent (promoAmtOf sel SERVICES code) ∧
      0 ≤ promoAmtOf sel SERVICES code ∧
      promoAmtOf sel SERVICES code ≤ afterBundleOf sel SERVICES := by
  have ha := afterBundle_nonneg sel
  have hac := cent_afterBundle sel
  rcases findPromo_cases code with h | h
  · rw [promoAmtOf_none h]
    exact ⟨cent_zero, le_refl 0, ha⟩
  · cases hr : sel.roof
    · rw [promoAmtOf_roofFifty_no h sel SERVICES hr]
      exact ⟨cent_zero, le_refl 0, ha⟩
    · rw [promoAmtOf_roofFifty h sel SERVICES hr]
      have c50 : Cent 50 := ⟨5000, by norm_num⟩
      have hcent : Cent (min (afterBundleOf sel SERVICES)
          (min 50 (max 0 (afterBundleOf sel SERVICES)))) :=
        hac.min (c50.min (cent_zero.max hac))
      rw [round2_cent hcent]
      refine ⟨hcent, ?_, min_le_left _ _⟩
      have h1 : (0 : ℚ) ≤ min 50 (max 0 (afterBundleOf sel SERVICES)) :=
        le_min (by norm_num) (le_max_left _ _)
      exact le_min ha h1

/-- The post-promo amount needs no rounding, and sits between 0 and the
post-bundle subtotal. -/
lemma afterPromo_props (sel : Selection) (code : Option String) :
    afterPromoOf sel SERVICES code =
        afterBundleOf sel SERVICES - promoAmtOf sel SERVICES code ∧
      Cent (afterPromoOf sel SERVICES code) ∧
      0 ≤ afterPromoOf sel SERVICES code ∧
      afterPromoOf sel SERVICES code ≤ afterBundleOf sel SERVICES := by
  obtain ⟨hc, h0, hle⟩ := promoAmt_props sel code
  have hcent : Cent (afterBundleOf sel SERVICES -
      promoAmtOf sel SERVICES code) := (cent_afterBundle sel).sub hc
  have heq : afterPromoOf sel SERVICES code =
      afterBundleOf sel SERVICES - promoAmtOf sel SERVICES code := by
    unfold afterPromoOf
    exact round2_cent hcent
  refine ⟨heq, heq ▸ hcent, ?_, ?_⟩
  · rw [heq]
    linarith
  · rw [heq]
    linarith

/-- The trip-fee-then-clamp tail of the engine, on a whole-cents input. -/
lemma clamp_aux {x : ℚ} (hx : Cent x) :
    max 0 (round2 (x + (if x < 249 ∧ 0 < x then round2 (249 - x) else 0)))
      = clampMin x := by
  have c249 : Cent 249 := ⟨24900, by norm_num⟩
  by_cases h : x < 249 ∧ 0 < x
  · rw [if_pos h]
    have h1 : round2 (249 - x) = 249 - x := round2_cent (c249.sub hx)
    rw [h1]
    have h2 : x + (249 - x) = (249 : ℚ) := by ring
    rw [h2, round2_cent c249]
    unfold clampMin
    rw [if_pos ⟨h.2, h.1⟩]
    norm_num
  · rw [if_neg h, add_zero, round2_cent hx]
    unfold clampMin
    rw [if_neg (fun hx' => h ⟨hx'.2, hx'.1⟩)]

/-- For a whole-cents post-promo amount the engine's trip fee and final
clamp amount to `clampMin`. -/
lemma totalOf_eq_clamp (sel : Selection) (code : Option String) :
    totalOf sel SERVICES code =
      clampMin (afterPromoOf sel SERVICES code) := by
  obtain ⟨-, hcent, -, -⟩ := afterPromo_props sel code
  unfold totalOf tripFeeOf
  exact clamp_aux hcent

lemma clampMin_mono {x y : ℚ} (h : x ≤ y) : clampMin x ≤ clampMin y := by
  unfold clampMin
  by_cases hx : 0 < x ∧ x < 249
  · rw [if_pos hx]
    by_cases hy : 0 < y ∧ y < 249
    · rw [if_pos hy]
    · rw [if_neg hy]
      have hy0 : 0 < y := lt_of_lt_of_le hx.1 h
      have : 249 ≤ y := by
        by_contra hlt
        exact hy ⟨hy0, lt_of_not_le hlt⟩
      exact le_max_of_le_right this
  · rw [if_neg hx]
    by_cases hy : 0 < y ∧ y < 249
    · rw [if_pos hy]
      exact max_le (by norm_num) (le_of_lt (lt_of_le_of_lt h hy.2))
    · rw [if_neg hy]
      exact max_le_max (le_refl 0) h

lemma afterPromo_eq_clean (sel : Selection) (ts gs : Bool)
    (code : Option String) :
    round2 ((computeTotals sel SERVICES ts gs code).subtotal -
        (computeTotals sel SERVICES ts gs code).multiAmt -
        (computeTotals sel SERVICES ts gs code).promoAmt) =
      afterPromoOf sel SERVICES code := by
  show round2 (subtotalOf sel SERVICES - multiAmtOf sel SERVICES -
    promoAmtOf sel SERVICES code) = _
  unfold afterPromoOf
  rw [afterBundle_eq]

/-- Claim C1: the promo-code variant's trip fee is
`round2(249 − afterPromo)` exactly when `0 < afterPromo < 249` (where
`afterPromo = round2(subtotal − discountAmount − promoAmount)`) and `0`
otherwise, the total is `max(0, round2(afterPromo + tripFee))`, and
consequently the total is either `0` or at least `249`. -/
theorem claim_C1 (sel : Selection) (ts gs : Bool) (code : Option String) :
    let t := computeTotals sel SERVICES ts gs code
    let ap := round2 (t.subtotal - t.multiAmt - t.promoAmt)
    t.tripFee = (if 0 < ap ∧ ap < 249 then round2 (249 - ap) else 0) ∧
      t.total = max 0 (round2 (ap + t.tripFee)) ∧
      (t.total = 0 ∨ 249 ≤ t.total) := by
  intro t ap
  have hap : ap = afterPromoOf sel SERVICES code :=
    afterPromo_eq_clean sel ts gs code
  rw [hap]
  refine ⟨?_, ?_, ?_⟩
  · show tripFeeOf sel SERVICES code = _
    unfold tripFeeOf
    by_cases h : 0 < afterPromoOf sel SERVICES code ∧
        afterPromoOf sel SERVICES code < 249
    · rw [if_pos ⟨h.2, h.1⟩, if_pos h]
    · rw [if_neg (fun hx => h ⟨hx.2, hx.1⟩), if_neg h]
  · show totalOf sel SERVICES code =
      max 0 (round2 (afterPromoOf sel SERVICES code +
        tripFeeOf sel SERVICES code))
    rfl
  · show totalOf sel SERVICES code = 0 ∨ 249 ≤ totalOf sel SERVICES code
    rw [totalOf_eq_clamp]
    obtain ⟨-, -, h0, -⟩ := afterPromo_props sel code
    unfold clampMin
    by_cases h : 0 < afterPromoOf sel SERVICES code ∧
        afterPromoOf sel SERVICES code < 249
    · rw [if_pos h]
      exact Or.inr (le_refl 249)
    · rw [if_neg h]
      rcases eq_or_lt_of_le h0 with heq | hlt
      · left
        rw [← heq]
        norm_num
      · right
        have h249 : 249 ≤ afterPromoOf sel SERVICES code := by
          by_contra hlt'
          exact h ⟨hlt, lt_of_not_le hlt'⟩
        rw [max_eq_right (le_of_lt hlt)]
        exact h249

/-- Claim C2: the bundle discount rate is the step function of
`effectiveCount` alone (0 / 0.05 / 0.10 / 0.15 / 0.20 for counts
0–1 / 2 / 3 / 4 / 5+), independent of which services are selected or their
prices, and `discountAmount = round2(subtotal × rate)`. -/
theorem claim_C2 (sel : Selection) (ts gs : Bool) (code : Option String) :
    let t := computeTotals sel SERVICES ts gs code
    t.multiRate = rateTable t.effectiveCount ∧
      t.multiAmt = round2 (t.subtotal * t.multiRate) := by
  intro t
  exact ⟨rfl, rfl⟩

/-- Claim C5: applying any promo code never increases the total relative
to applying none. -/
theorem claim_C5 (sel : Selection) (ts gs : Bool) (code : Option String) :
    (computeTotals sel SERVICES ts gs code).total ≤
      (computeTotals sel SERVICES ts gs none).total := by
  show totalOf sel SERVICES code ≤ totalOf sel SERVICES none
  rw [totalOf_eq_clamp, totalOf_eq_clamp]
  apply clampMin_mono
  obtain ⟨-, -, -, hle⟩ := afterPromo_props sel code
  obtain ⟨heq0, -, -, -⟩ := afterPromo_props sel none
  rw [heq0, promoAmtOf_none findPromo_none_of_null]
  simpa using hle

/-- Claim C10: varying only the promo-code argument leaves
`selectedCount`, `effectiveCount`, `subtotal`, `multiRate`, `multiAmt`,
and `durationMinutes` unchanged — the promo is applied strictly after the
bundle discount and never feeds back into prices, counts, or duration. -/
theorem claim_C10 (sel : Selection) (ts gs : Bool) (code : Option String) :
    let t := computeTotals sel SERVICES ts gs code
    let t₀ := computeTotals sel SERVICES ts gs none
    t.selectedCount = t₀.selectedCount ∧
      t.effectiveCount = t₀.effectiveCount ∧ t.subtotal = t₀.subtotal ∧
      t.multiRate = t₀.multiRate ∧ t.multiAmt = t₀.multiAmt ∧
      t.durationMinutes = t₀.durationMinutes := by
  intro t t₀
  exact ⟨rfl, rfl, rfl, rfl, rfl, rfl⟩

/-- Claim C4: with the roof service selected, applying ROOF50 yields
`promoAmt = round2(min(subtotalAfterBundle, min(50, max(0,
subtotalAfterBundle))))` and the `Totals` record reports the promo code
`"ROOF50"`. -/
theorem claim_C4 (sel : Selection) (ts gs : Bool) (h : sel.roof = true) :
    let t := computeTotals sel SERVICES ts gs (some "ROOF50")
    let afterBundle := round2 (t.subtotal - t.multiAmt)
    t.promoAmt =
        round2 (min afterBundle (min 50 (max 0 afterBundle))) ∧
      t.promoCode = some "ROOF50" := by
  intro t afterBundle
  have hab : afterBundle = afterBundleOf sel SERVICES := rfl
  rw [hab]
  constructor
  · show promoAmtOf sel SERVICES (some "ROOF50") = _
    rw [promoAmtOf_roofFifty findPromo_ROOF50 sel SERVICES h]
  · show (findPromo (some "ROOF50")).map Promo.code = _
    rw [findPromo_ROOF50]
    rfl

/-- Witness for C4 at the roof-only selection. -/
theorem claim_C4_witness :
    let t := computeTotals ⟨false, false, true, false, false, false⟩
      SERVICES false false (some "ROOF50")
    let afterBundle := round2 (t.subtotal - t.multiAmt)
    t.promoAmt =
        round2 (min afterBundle (min 50 (max 0 afterBundle))) ∧
      t.promoCode = some "ROOF50" :=
  claim_C4 ⟨false, false, true, false, false, false⟩ false false rfl

/-- The effective and selected counts agree exactly when the two
pressure-wash variants are not both selected (checked over all 64
selections). -/
lemma effectiveCount_eq_iff : ∀ sel : Selection,
    (effectiveCountOf sel SERVICES = selectedCountOf sel SERVICES ↔
      ¬(sel.pressureDriveway = true ∧ sel.pressurePatio = true)) := by
  decide

/-- Claim C7: `effectiveCount ≤ selectedCount`, with equality unless two
selected services share a discount category; the only services sharing a
category are the two pressure-wash variants, and every other catalog id is
its own category. -/
theorem claim_C7 (sel : Selection) (ts gs : Bool) (code : Option String) :
    let t := computeTotals sel SERVICES ts gs code
    t.effectiveCount ≤ t.selectedCount ∧
      (t.effectiveCount = t.selectedCount ↔
        ¬(sel.pressureDriveway = true ∧ sel.pressurePatio = true)) ∧
      discountCategoryFor "pressure-driveway" =
        discountCategoryFor "pressure-patio" ∧
      ((SERVICES.map Service.id).all fun i =>
        (SERVICES.map Service.id).all fun j =>
          (i == j) ||
          !(discountCategoryFor i == discountCategoryFor j) ||
          (i == "pressure-driveway" && j == "pressure-patio") ||
          (i == "pressure-patio" && j == "pressure-driveway")) = true ∧
      ((SERVICES.map Service.id).all fun i =>
        (i == "pressure-driveway") || (i == "pressure-patio") ||
        (discountCategoryFor i == i)) = true := by
  intro t
  refine ⟨?_, effectiveCount_eq_iff sel, rfl, rfl, rfl⟩
  show effectiveCountOf sel SERVICES ≤ selectedCountOf sel SERVICES
  unfold effectiveCountOf selectedCountOf
  calc (((chosenOf sel SERVICES).map
        (fun s => discountCategoryFor s.id)).dedup).length
      ≤ ((chosenOf sel SERVICES).map
        (fun s => discountCategoryFor s.id)).length :=
        (List.dedup_sublist _).length_le
    _ = (chosenOf sel SERVICES).length := List.length_map _ _

/-- Claim C8: for every integer minutes value, `mapDurationToHours`
returns `ceil(minutes / 60)` clamped to `[1, 8]`; zero or negative
minutes give 1, and the result never leaves `1–8`. -/
theorem claim_C8 (m : ℤ) :
    mapDurationToHours (m : ℚ) = min 8 (max 1 ⌈(m : ℚ) / 60⌉) ∧
      1 ≤ mapDurationToHours (m : ℚ) ∧ mapDurationToHours (m : ℚ) ≤ 8 ∧
      (if m ≤ 0 then mapDurationToHours (m : ℚ) = 1 else True) := by
  unfold mapDurationToHours
  by_cases h : (m : ℚ) = 0 ∨ (m : ℚ) < 0
  · have hm0 : (m : ℚ) ≤ 0 := by
      rcases h with h | h
      · exact le_of_eq h
      · exact le_of_lt h
    have hdiv : (m : ℚ) / 60 ≤ 0 :=
      div_nonpos_iff.mpr (Or.inr ⟨hm0, by norm_num⟩)
    have hceil : (⌈(m : ℚ) / 60⌉ : ℤ) ≤ 0 :=
      Int.ceil_le.mpr (by exact_mod_cast hdiv)
    have hmax : max 1 ⌈(m : ℚ) / 60⌉ = 1 :=
      max_eq_left (hceil.trans (by norm_num))
    rw [if_pos h, hmax]
    refine ⟨by norm_num, le_refl 1, by norm_num, ?_⟩
    have : m ≤ 0 := by exact_mod_cast hm0
    rw [if_pos this]
  · push_neg at h
    have hmle : (0 : ℤ) ≤ m := by exact_mod_cast h.2
    have hmne : m ≠ 0 := by
      intro he
      apply h.1
      rw [he]
      norm_num
    have hm : 0 < m := lt_of_le_of_ne hmle (Ne.symm hmne)
    rw [if_neg (by push_neg; exact h)]
    refine ⟨by rw [min_comm, max_comm], ?_, min_le_right _ _, ?_⟩
    · exact le_min (le_max_right _ _) (by norm_num)
    · rw [if_neg (not_le.mpr hm)]
      trivial

/-- Claim C3: in the modifier variant, selecting exactly the gutter
service with two-story and gutter guards gives subtotal
`(249 × 2) + 749 = 1247` (doubling first, then the flat guards
surcharge), duration `180 × 2 = 360` minutes, and a 6-hour booking
bucket. -/
theorem claim_C3 :
    (computeTotalsTsx ⟨false, false, false, false, true, false⟩
        SERVICES true true false).subtotal = 1247 ∧
      (computeTotalsTsx ⟨false, false, false, false, true, false⟩
        SERVICES true true false).durationMinutes = 360 ∧
      mapDurationToHours
        (computeTotalsTsx ⟨false, false, false, false, true, false⟩
          SERVICES true true false).durationMinutes = 6 := by
  have hsub : (computeTotalsTsx ⟨false, false, false, false, true, false⟩
      SERVICES true true false).subtotal = 1247 := by
    simp [computeTotalsTsx, adjustPrice, SERVICES, Selection.lookup]
    norm_num
  have hdur : (computeTotalsTsx ⟨false, false, false, false, true, false⟩
      SERVICES true true false).durationMinutes = 360 := by
    simp [computeTotalsTsx, adjustPrice, SERVICES, Selection.lookup,
      gutterDuration]
    norm_num
  refine ⟨hsub, hdur, ?_⟩
  rw [hdur]
  unfold mapDurationToHours
  rw [if_neg (by norm_num)]
  have h6 : (360 : ℚ) / 60 = ((6 : ℤ) : ℚ) := by norm_num
  rw [h6, Int.ceil_intCast]
  norm_num

/-- Claim C9: in the modifier variant, the house half-price flag rounds
`price × 0.5` to whole currency units (`Math.round`, not cents) as the
last adjustment: with two-story active the house price is
`round((599 + 100) × 0.5) = 350`, while cent rounding of the same amount
would give `349.5`. -/
theorem claim_C9 (ts g : Bool) (s : Service) :
    adjustPrice ts g true s =
        (if s.id = "house" then
          (jsRound (adjustPrice ts g false s * 0.5) : ℚ)
        else adjustPrice ts g false s) ∧
      (SERVICES.filter (fun x => x.id == "house")).map
        (adjustPrice true g true) = [350] ∧
      (SERVICES.filter (fun x => x.id == "house")).map
        (adjustPrice true g false) = [699] ∧
      round2 (699 * 0.5) = 349.5 := by
  refine ⟨?_, ?_, ?_, ?_⟩
  · by_cases hid : s.id = "house" <;> simp [adjustPrice, hid]
  · simp [SERVICES, adjustPrice, jsRound]
    norm_num [Int.floor_eq_iff]
  · simp [SERVICES, adjustPrice]
    norm_num
  · unfold round2 jsRound
    norm_num [Int.floor_eq_iff]

/-- Counterexample to claim C6 as stated: with no service selected,
applying `"ROOF50"` (a registry code whose predicate rejects the
selection) does not return the same `Totals` as applying no code — the
`promoCode` field reports `"ROOF50"` instead of `null`. -/
theorem claim_C6_counterexample :
    computeTotals ⟨false, false, false, false, false, false⟩ SERVICES
        false false (some "ROOF50") ≠
      computeTotals ⟨false, false, false, false, false, false⟩ SERVICES
        false false none := by
  intro h
  have h2 := congrArg Totals.promoCode h
  have h3 : (some "ROOF50" : Option String) = none := h2
  cases h3

/-- Claim C6 (amended): a code whose canonical form is not in the
registry gives exactly the same `Totals` as no code; a registry code
whose predicate rejects the selection leaves every numeric field
identical with `promoAmt = 0`, but reports the matched code in
`promoCode` instead of `null`.  (`computeTotals` is a total Lean
function, so it is defined, without exceptions, on every input.) -/
theorem claim_C6_amended (sel : Selection) (ts gs : Bool) (code : String) :
    (findPromo (some code) = none →
      computeTotals sel SERVICES ts gs (some code) =
        computeTotals sel SERVICES ts gs none) ∧
    (findPromo (some code) = some roofFifty → sel.roof = false →
      let t := computeTotals sel SERVICES ts gs (some code)
      let t₀ := computeTotals sel SERVICES ts gs none
      t.promoCode = some "ROOF50" ∧ t.promoAmt = 0 ∧
        t.selectedCount = t₀.selectedCount ∧
        t.effectiveCount = t₀.effectiveCount ∧ t.subtotal = t₀.subtotal ∧
        t.multiRate = t₀.multiRate ∧ t.multiAmt = t₀.multiAmt ∧
        t.tripFee = t₀.tripFee ∧ t.total = t₀.total ∧
        t.durationMinutes = t₀.durationMinutes) := by
  constructor
  · intro h
    exact computeTotals_congr (h.trans findPromo_none_of_null.symm) sel
      SERVICES ts gs ts gs
  · intro h hr t t₀
    have hp : promoAmtOf sel SERVICES (some code) = 0 :=
      promoAmtOf_roofFifty_no h sel SERVICES hr
    have hp0 : promoAmtOf sel SERVICES none = 0 :=
      promoAmtOf_none findPromo_none_of_null sel SERVICES
    have hap : afterPromoOf sel SERVICES (some code) =
        afterPromoOf sel SERVICES none := by
      unfold afterPromoOf
      rw [hp, hp0]
    refine ⟨?_, hp, rfl, rfl, rfl, rfl, rfl, ?_, ?_, rfl⟩
    · show (findPromo (some code)).map Promo.code = some "ROOF50"
      rw [h]
      rfl
    · show tripFeeOf sel SERVICES (some code) =
        tripFeeOf sel SERVICES none
      unfold tripFeeOf
      rw [hap]
    · show totalOf sel SERVICES (some code) = totalOf sel SERVICES none
      unfold totalOf tripFeeOf
      rw [hap]

/-- Witness for the amended C6: the unknown code `"BOGUS"` and the
rejected code `"ROOF50"` without the roof service, on the empty
selection. -/
theorem claim_C6_amended_witness :
    (computeTotals ⟨false, false, false, false, false, false⟩ SERVICES
        false false (some "BOGUS") =
      computeTotals ⟨false, false, false, false, false, false⟩ SERVICES
        false false none) ∧
    (let t := computeTotals ⟨false, false, false, false, false, false⟩
        SERVICES false false (some "ROOF50")
     let t₀ := computeTotals ⟨false, false, false, false, false, false⟩
        SERVICES false false none
     t.promoCode = some "ROOF50" ∧ t.promoAmt = 0 ∧
       t.selectedCount = t₀.selectedCount ∧
       t.effectiveCount = t₀.effectiveCount ∧ t.subtotal = t₀.subtotal ∧
       t.multiRate = t₀.multiRate ∧ t.multiAmt = t₀.multiAmt ∧
       t.tripFee = t₀.tripFee ∧ t.total = t₀.total ∧
       t.durationMinutes = t₀.durationMinutes) :=
  ⟨(claim_C6_amended ⟨false, false, false, false, false, false⟩ false
      false "BOGUS").1 rfl,
    (claim_C6_amended ⟨false, false, false, false, false, false⟩ false
      false "ROOF50").2 rfl rfl⟩

end InstantQuote
